import Mathlib

/-!
Verification of the SpiceZify YouTube service core
(src/server/python_services/youtube_service.py) against its natural-language
specification.  The Python code is shallowly embedded: dictionaries become
association lists (Python dicts preserve insertion order, as do the lists
here), wall-clock instants become natural numbers, Python ints become Int or
Nat, and every network effect (catalog search, metadata probe, upstream
fetch) becomes an explicit parameter of the embedded function.
-/

/-! ## Generic character, string and list helpers -/

/-- Lower-case a character sequence, modelling Python str.lower on ASCII data. -/
def toLowerChars (l : List Char) : List Char := l.map Char.toLower

/-- Lower-case a string, modelling Python str.lower on ASCII data. -/
def strToLower (s : String) : String := ⟨toLowerChars s.data⟩

/-- Substring test on character lists: does p occur contiguously inside l?
Models the Python expression "p in l". -/
def containsSub (p : List Char) : List Char → Bool
  | [] => p.isEmpty
  | c :: rest => p.isPrefixOf (c :: rest) || containsSub p rest

/-- Substring test on strings, modelling the Python expression "sub in s". -/
def strContains (s sub : String) : Bool := containsSub sub.data s.data

/-- Membership of a string in a list of strings, modelling "s in collection". -/
def containsStr (l : List String) (s : String) : Bool := l.any (fun x => x == s)

/-- Python list slicing l[:n] for an arbitrary (possibly negative) integer n. -/
def pyTake (n : Int) (l : List α) : List α :=
  if 0 ≤ n then l.take n.toNat else l.take (l.length - (-n).toNat)

/-- Insert x into l immediately before the first element y with le x y false
becoming true, i.e. before the first element it may precede.  Together with
isort this is a stable sort, the semantics guaranteed for Python sorted and
list.sort. -/
def insSorted (le : α → α → Bool) (x : α) : List α → List α
  | [] => [x]
  | y :: ys => if le x y then x :: y :: ys else y :: insSorted le x ys

/-- Stable insertion sort with respect to the boolean relation le.  Models
Python sorted(key=...) and list.sort(key=..., reverse=...), which are stable. -/
def isort (le : α → α → Bool) : List α → List α
  | [] => []
  | x :: xs => insSorted le x (isort le xs)

/-! ## Cache Manager (youtube_service.py lines 118-207)

CacheManager stores entries in a Python dict keyed by string; the dict is
modelled as an association list in insertion order.  Assigning to an existing
key keeps its position (as in Python dicts); a new key is appended at the
end. -/

structure CacheEntry (α : Type) where
  data : α
  created_at : Nat
  last_accessed : Nat
  expires_at : Nat
  access_count : Nat
deriving DecidableEq

structure CacheManager (α : Type) where
  max_size : Nat
  default_ttl : Nat
  cache : List (String × CacheEntry α)
deriving DecidableEq

/-- Dict lookup self.cache[key] (None when absent). -/
def lookupEntry (l : List (String × CacheEntry α)) (key : String) : Option (CacheEntry α) :=
  match l with
  | [] => none
  | (k, e) :: rest => if k == key then some e else lookupEntry rest key

/-- Dict assignment self.cache[key] = entry: replace in place when the key is
present, append otherwise (Python dicts keep the original position on
reassignment). -/
def insertOrReplace (l : List (String × CacheEntry α)) (key : String) (en : CacheEntry α) :
    List (String × CacheEntry α) :=
  match l with
  | [] => [(key, en)]
  | (k, e) :: rest =>
    if k == key then (key, en) :: rest else (k, e) :: insertOrReplace rest key en

/-- CacheManager cleanup of expired entries (lines 125-134): every entry with
current_time strictly greater than its expires_at is removed. -/
def CacheManager.cleanupExpired (c : CacheManager α) (now : Nat) : CacheManager α :=
  { c with cache := c.cache.filter (fun e => !(decide (now > e.2.expires_at))) }

/-- Comparison used by the LRU sweep: sorted(self.cache.items(),
key=lambda x: x[1]["last_accessed"]). -/
def lruLe (a b : String × CacheEntry α) : Bool :=
  decide (a.2.last_accessed ≤ b.2.last_accessed)

/-- CacheManager LRU cleanup (lines 136-149): when the store holds more than
max_size entries, sort all entries (expired or not) by last_accessed and
delete the first size - max_size + 10 keys of that order. -/
def CacheManager.cleanupLru (c : CacheManager α) : CacheManager α :=
  if c.cache.length ≤ c.max_size then c
  else
    let sorted := isort lruLe c.cache
    let entries_to_remove := c.cache.length - c.max_size + 10
    let removed := (sorted.take entries_to_remove).map Prod.fst
    { c with cache := c.cache.filter (fun e => !(containsStr removed e.1)) }

/-- The entry written by CacheManager.set (lines 175-181).  The Python
expression (ttl or self.default_ttl) treats both None and 0 as absent. -/
def CacheManager.newEntry (c : CacheManager α) (now : Nat) (data : α) (ttl : Option Nat) :
    CacheEntry α :=
  { data := data, created_at := now, last_accessed := now,
    expires_at := now +
      (match ttl with
       | some t => if t = 0 then c.default_ttl else t
       | none => c.default_ttl),
    access_count := 1 }

/-- First stage of CacheManager.set (line 175): the unconditional write. -/
def CacheManager.setInsert (c : CacheManager α) (now : Nat) (key : String) (data : α)
    (ttl : Option Nat) : CacheManager α :=
  { c with cache := insertOrReplace c.cache key (c.newEntry now data ttl) }

/-- Second stage of CacheManager.set (line 184): the expiry sweep runs
exactly when the post-insert size is a multiple of 50. -/
def CacheManager.setSweep (c : CacheManager α) (now : Nat) : CacheManager α :=
  if c.cache.length % 50 = 0 then c.cleanupExpired now else c

/-- Third stage of CacheManager.set (line 186): the LRU sweep runs exactly
when the size exceeds max_size. -/
def CacheManager.setEvict (c : CacheManager α) : CacheManager α :=
  if c.cache.length > c.max_size then c.cleanupLru else c

/-- CacheManager.set (lines 170-189): always write; run the expiry sweep when
the post-insert size is a multiple of 50; run the LRU sweep when the size
exceeds max_size. -/
def CacheManager.set (c : CacheManager α) (now : Nat) (key : String) (data : α)
    (ttl : Option Nat) : CacheManager α :=
  ((c.setInsert now key data ttl).setSweep now).setEvict

/-- CacheManager.get (lines 151-168): absent keys return None; an entry with
now strictly greater than expires_at is deleted and None returned; otherwise
last_accessed is refreshed, access_count incremented and the data returned.
The updated store is returned alongside the result. -/
def CacheManager.get (c : CacheManager α) (now : Nat) (key : String) :
    Option α × CacheManager α :=
  match lookupEntry c.cache key with
  | none => (none, c)
  | some en =>
    if now > en.expires_at then
      (none, { c with cache := c.cache.filter (fun e => !(e.1 == key)) })
    else
      let en2 : CacheEntry α :=
        { en with last_accessed := now, access_count := en.access_count + 1 }
      (some en.data, { c with cache := insertOrReplace c.cache key en2 })

/-- One set call of a sequence, for stating properties over arbitrary
sequences of writes. -/
structure SetOp (α : Type) where
  now : Nat
  key : String
  data : α
  ttl : Option Nat
deriving DecidableEq

/-- Apply a sequence of set calls to a cache. -/
def applySets (c : CacheManager α) (ops : List (SetOp α)) : CacheManager α :=
  ops.foldl (fun acc op => acc.set op.now op.key op.data op.ttl) c

/-! ## Module constants (youtube_service.py lines 91-115) -/

/-- MIN_TRACK_SECS = 75. -/
def MIN_TRACK_SECS : Int := 75

/-- MAX_TRACK_SECS = 600. -/
def MAX_TRACK_SECS : Int := 600

/-- GOOD_WORDS = ("official", "audio", "music", "video"). -/
def GOOD_WORDS : List String := ["official", "audio", "music", "video"]

/-- Keys of VERIFIED_MUSIC_CHANNELS (line 100); OAC_ALLOWLIST is this set. -/
def OAC_ALLOWLIST : List String :=
  ["UCmMUZbaYdNH0bEd1PAlAqsA", "UC2pmfLm7iq6Ov1UwYrWYkZA", "UCELh-8oY4E5UBgapPGl5cAg",
   "UCG5fOx8hLLKIWptfcMNOyEw", "UC0C-w0YjGpqDXGB8IHb662A", "UCT9zcQNlyht7fRlcjmflRSA",
   "UCvjSjV2YMLzRE9jnU7BicZw", "UCtxdfwb9wfkoGocVUAJ-Bmg", "UCe6NHLp0p6oN_oV3ZXhOWAw"]

/-! ## Candidate normalizer: extract_video_id (lines 229-250)

The Python helper first matches the whole input against the bare-id regex
[a-zA-Z0-9_-] repeated 11 times, then applies three re.search patterns in
order, and finally falls back to the first 11 characters (or the whole input
when shorter).  re.search is modelled as a left-to-right scan; a dollar
anchor in Python also matches just before one trailing newline, which the
model reproduces. -/

/-- Character class [a-zA-Z0-9_-]. -/
def idChar (c : Char) : Bool :=
  ('a' ≤ c && c ≤ 'z') || ('A' ≤ c && c ≤ 'Z') || ('0' ≤ c && c ≤ '9') || c == '_' || c == '-'

/-- Full match of the bare-id pattern [a-zA-Z0-9_-] repeated exactly 11
times, anchored at both ends. -/
def matchBareId (l : List Char) : Bool := l.length == 11 && l.all idChar

/-- Python re.match with a trailing dollar also succeeds when a single
newline follows the 11 id characters at the end of the input. -/
def matchBareIdPy (l : List Char) : Bool :=
  matchBareId l ||
    (l.length == 12 && l.getLast? == some '\n' && (l.take 11).all idChar)

/-- Attempt the capture group: exactly 11 id characters starting here. -/
def idAfter (l : List Char) : Option (List Char) :=
  if 11 ≤ l.length && (l.take 11).all idChar then some (l.take 11) else none

/-- Try each literal alternative of an alternation at the current position,
in order, and require 11 id characters after the matched alternative. -/
def tryAlts (alts : List (List Char)) (l : List Char) : Option (List Char) :=
  match alts with
  | [] => none
  | a :: rest =>
    if a.isPrefixOf l then
      match idAfter (l.drop a.length) with
      | some r => some r
      | none => tryAlts rest l
    else tryAlts rest l

/-- re.search for an alternation of literal prefixes followed by 11 id
characters: scan positions left to right, alternatives in order at each. -/
def scanFor (alts : List (List Char)) : List Char → Option (List Char)
  | [] => none
  | c :: rest =>
    match tryAlts alts (c :: rest) with
    | some r => some r
    | none => scanFor alts rest

/-- Alternatives of the first pattern
(youtube.com/watch?v= | youtu.be/ | youtube.com/embed/). -/
def watchAlts : List (List Char) :=
  ["youtube.com/watch?v=".data, "youtu.be/".data, "youtube.com/embed/".data]

/-- The second pattern v= followed by the 11-character capture. -/
def vEqAlt : List (List Char) := ["v=".data]

/-- End-anchored part of the third pattern: a slash followed by exactly 11 id
characters at the very end of the input. -/
def p3Core (l : List Char) : Option (List Char) :=
  if 12 ≤ l.length then
    let tail11 := l.drop (l.length - 11)
    if (l.take (l.length - 11)).getLast? == some '/' && tail11.all idChar then some tail11
    else none
  else none

/-- The third pattern /([a-zA-Z0-9_-] repeated 11 times) with a dollar
anchor; the dollar also matches just before one trailing newline. -/
def matchP3 (l : List Char) : Option (List Char) :=
  match p3Core l with
  | some r => some r
  | none => if l.getLast? == some '\n' then p3Core l.dropLast else none

/-- extract_video_id (lines 229-250).  An empty input is falsy and yields
None; a bare-id match returns the input itself; otherwise the three patterns
run in order; otherwise the first 11 characters (or the whole short input)
are returned.  Only the empty input produces None. -/
def extract_video_id (video_input : String) : Option String :=
  if video_input.data.isEmpty then none
  else if matchBareIdPy video_input.data then some video_input
  else
    match scanFor watchAlts video_input.data with
    | some r => some ⟨r⟩
    | none =>
      match scanFor vEqAlt video_input.data with
      | some r => some ⟨r⟩
      | none =>
        match matchP3 video_input.data with
        | some r => some ⟨r⟩
        | none =>
          if 11 ≤ video_input.data.length then some ⟨video_input.data.take 11⟩
          else some video_input

/-- The ordered extraction patterns of the normalizer, as a list: the
combined watch-or-shortlink-or-embed pattern, the generic v= parameter
pattern, and the trailing-path fallback pattern. -/
def extractionPatterns : List (List Char → Option (List Char)) :=
  [scanFor watchAlts, scanFor vEqAlt, matchP3]

/-- Specification-side normalizer, following the amended wording of the
claim: recognize the fixed-length bare-id shape directly; otherwise apply
the ordered extraction patterns and return the first match; for inputs in
which nothing recognizable is found, return the first 11 characters when the
input has at least 11 characters and the whole input when shorter; return
absent only for empty input. -/
def normalizeSpec (raw : String) : Option String :=
  if raw.data.isEmpty then none
  else if matchBareIdPy raw.data then some raw
  else
    match extractionPatterns.findSome? (fun pat => pat raw.data) with
    | some r => some ⟨r⟩
    | none => if 11 ≤ raw.data.length then some ⟨raw.data.take 11⟩ else some raw

/-! ## Filter engine: probe flags and hard_keep (lines 95, 323-404)

probe_with_ytdlp computes a flags dictionary from the yt-dlp info
dictionary; hard_keep consumes the flags.  The info dictionary is modelled
with the fields the flags computation reads.  BAD_TITLE_RE is the
case-insensitive alternation of the deny words, where mix carries a negative
lookahead for an optional space followed by tape, and shorts has an optional
final s (so the substring short already triggers it). -/

/-- Deny words of BAD_TITLE_RE whose occurrence anywhere is a match (the
optional-s alternative shorts reduces to the substring short). -/
def plainBadWords : List (List Char) :=
  ["reaction".data, "review".data, "tutorial".data, "gameplay".data, "vlog".data,
   "unboxing".data, "cooking".data, "podcast".data, "compilation".data, "playlist".data,
   "sped up".data, "nightcore".data, "slowed".data, "short".data]

/-- The alternative mix with its negative lookahead: mix matches here unless
followed by tape or by one space and tape. -/
def mixBadAt (l : List Char) : Bool :=
  "mix".data.isPrefixOf l &&
    !("tape".data.isPrefixOf (l.drop 3) || " tape".data.isPrefixOf (l.drop 3))

/-- re.search of BAD_TITLE_RE over an already lower-cased character list. -/
def badTitleScan : List Char → Bool
  | [] => false
  | c :: rest =>
    plainBadWords.any (fun w => w.isPrefixOf (c :: rest)) || mixBadAt (c :: rest) ||
      badTitleScan rest

/-- The fields of the yt-dlp info dictionary read by probe_with_ytdlp
(lines 341-359), with the defaulting of lines 341-346 already applied. -/
structure VideoInfo where
  title : String
  categories : List String
  duration : Int
  webpage_url : String
  uploader_badges : List String
  channel_id : String
  is_live : Bool
  was_live : Bool
  live_status : String
  is_embed_allowed : Bool
  age_limit : Int
deriving DecidableEq

/-- The flags dictionary built by probe_with_ytdlp (lines 361-373). -/
structure Flags where
  duration : Int
  is_live : Bool
  is_music_cat : Bool
  verified : Bool
  embeddable : Bool
  is_shorts_url : Bool
  title_bad : Bool
  title_good : Bool
  channel_id : String
  title : String
  cats : List String
deriving DecidableEq

/-- Flag computation of probe_with_ytdlp (lines 341-373): lower-cased
categories, verified from the allow-list or badges, music category only when
categories are present, live from three signals, embeddable from the embed
flag and the age limit, shorts from the URL shape, and the two title
signals. -/
def probeFlags (info : VideoInfo) : Flags :=
  let cats := info.categories.map strToLower
  let badges := info.uploader_badges.map strToLower
  let verified :=
    containsStr OAC_ALLOWLIST info.channel_id ||
      badges.any (fun b => strContains b "official artist" || strContains b "verified")
  let is_music_cat := if !cats.isEmpty then containsStr cats "music" else false
  let is_live :=
    info.is_live || info.was_live ||
      (info.live_status == "is_live" || info.live_status == "was_live" ||
        info.live_status == "is_upcoming")
  let is_embed_allowed := info.is_embed_allowed
  let is_age := decide (info.age_limit > 0)
  { duration := info.duration,
    is_live := is_live,
    is_music_cat := is_music_cat,
    verified := verified,
    embeddable := is_embed_allowed && !is_age,
    is_shorts_url := strContains info.webpage_url "/shorts/",
    title_bad := badTitleScan (toLowerChars info.title.data),
    title_good := GOOD_WORDS.any (fun w => containsSub w.data (toLowerChars info.title.data)),
    channel_id := info.channel_id,
    title := info.title,
    cats := cats }

/-- hard_keep (lines 377-404): the eight rejection rules in source order,
returning the pair (keep, reason).  The global ENFORCE_VERIFIED_ONLY is the
explicit first parameter. -/
def hard_keep (enforce_verified_only : Bool) (flags : Flags) : Bool × String :=
  if flags.duration < MIN_TRACK_SECS then (false, "too-short")
  else if flags.duration > 3600 then (false, "too-long-hour-plus")
  else if flags.is_live then (false, "live")
  else if flags.is_shorts_url then (false, "shorts-url")
  else if !flags.cats.isEmpty && !flags.is_music_cat then (false, "not-music-category")
  else if !flags.embeddable then (false, "not-embeddable")
  else if flags.title_bad then (false, "bad-title")
  else if enforce_verified_only && !flags.verified then (false, "not-verified")
  else (true, "ok")

/-- Specification-side rule list for the hard filter, in the precedence
order of the spec, with the reason strings as the code spells them.  Rule
five fires only when categories are present; rule eight only in
verified-only mode. -/
def specHardRules (verified_only_mode : Bool) (p : Flags) : List (Bool × String) :=
  [(decide (p.duration < MIN_TRACK_SECS), "too-short"),
   (decide (p.duration > 3600), "too-long-hour-plus"),
   (p.is_live, "live"),
   (p.is_shorts_url, "shorts-url"),
   (!p.cats.isEmpty && !p.is_music_cat, "not-music-category"),
   (!p.embeddable, "not-embeddable"),
   (p.title_bad, "bad-title"),
   (verified_only_mode && !p.verified, "not-verified")]

/-- Specification-side hard filter: evaluate the eight rules in precedence
order and short-circuit at the first matching rule; keep when none match. -/
def hardFilterSpec (verified_only_mode : Bool) (p : Flags) : Bool × String :=
  match (specHardRules verified_only_mode p).find? (fun r => r.1) with
  | some r => (false, r.2)
  | none => (true, "ok")

/-! ## Search processing loop (search endpoint, lines 515-719)

The per-candidate body of the loop at lines 590-677 never calls
probe_with_ytdlp or hard_keep: when the per-track cache has no fresh entry
it fabricates fixed metadata (title "Track id", duration 210, score 3) and
caches that.  The rejected_reasons dictionary initialised at line 588 is
reported in the response (lines 688-701) but never written.  Wall-clock time
is frozen at a single instant for the request.  Result entries keep the
fields the claims speak about (identifier, duration in seconds, verification
flag, music score); purely textual display fields are omitted. -/

/-- The per-track dictionary stored in video_cache by the loop
(lines 628-637). -/
structure CachedVideoData where
  title : String
  duration : Int
  channel_name : String
  channel_id : String
  is_verified : Bool
  mscore : Int
  timestamp : Nat
deriving DecidableEq

/-- One entry of the results list (lines 653-667), restricted to the fields
the specification claims mention. -/
structure ResultEntry where
  id : String
  duration_seconds : Int
  isVerified : Bool
  musicScore : Int
deriving DecidableEq

/-- The fabricated fast-path metadata of lines 616-624. -/
def freshData (now : Nat) (clean_id : String) : CachedVideoData :=
  { title := "Track " ++ clean_id, duration := 210, channel_name := "Music Channel",
    channel_id := ⟨clean_id.data.take 8⟩, is_verified := false, mscore := 3,
    timestamp := now }

/-- Build the appended result entry from the metadata in hand. -/
def mkResult (clean_id : String) (d : CachedVideoData) : ResultEntry :=
  { id := clean_id, duration_seconds := d.duration, isVerified := d.is_verified,
    musicScore := d.mscore }

/-- One iteration of the candidate loop (lines 590-667): normalize the id
(skip when absent), consult video_cache, use the cached metadata when its
timestamp is fresh, otherwise fabricate metadata and cache it with ttl 300.
Returns the appended entry (when any) and the updated cache. -/
def processCandidate (now : Nat) (vc : CacheManager CachedVideoData) (vid : String) :
    Option ResultEntry × CacheManager CachedVideoData :=
  match extract_video_id vid with
  | none => (none, vc)
  | some clean_id =>
    let g := vc.get now clean_id
    match g.1 with
    | some d =>
      if now - d.timestamp < 300 then (some (mkResult clean_id d), g.2)
      else
        let d2 := freshData now clean_id
        (some (mkResult clean_id d2), g.2.set now clean_id d2 (some 300))
    | none =>
      let d2 := freshData now clean_id
      (some (mkResult clean_id d2), g.2.set now clean_id d2 (some 300))

/-- The candidate loop (lines 590-677): process candidates in order,
appending entries, and break as soon as the accumulated count reaches
max_results. -/
def searchLoop (now : Nat) (maxR : Int) :
    List String → CacheManager CachedVideoData → List ResultEntry →
      List ResultEntry × CacheManager CachedVideoData
  | [], vc, results => (results, vc)
  | vid :: rest, vc, results =>
    match processCandidate now vc vid with
    | (none, vc2) => searchLoop now maxR rest vc2 results
    | (some e, vc2) =>
      let results2 := results ++ [e]
      if maxR ≤ (results2.length : Int) then (results2, vc2)
      else searchLoop now maxR rest vc2 results2

/-- Comparison of results.sort(key=lambda x: x.get("musicScore", 0),
reverse=True): a may precede b exactly when the score of a is at least that of b, which
with insertion sort realises the stable descending sort. -/
def scoreLe (a b : ResultEntry) : Bool := decide (b.musicScore ≤ a.musicScore)

/-- Results accumulated by the loop before sorting, after the overscan trim
ids[: max_results * 2] of line 582. -/
def searchLoopResults (now : Nat) (ids0 : List String) (vc : CacheManager CachedVideoData)
    (maxR : Int) : List ResultEntry :=
  (searchLoop now maxR (pyTake (maxR * 2) ids0) vc []).1

/-- The results list of the response: the loop output sorted by descending
music score with the stable sort of line 682. -/
def searchResults (now : Nat) (ids0 : List String) (vc : CacheManager CachedVideoData)
    (maxR : Int) : List ResultEntry :=
  isort scoreLe (searchLoopResults now ids0 vc maxR)

/-- The filtering_stats dictionary of the response: rejected_reasons is
initialised at line 588 and reported at lines 688-701 but no statement of
the loop ever writes to it, so it is constantly empty. -/
def searchRejectedReasons (now : Nat) (ids0 : List String)
    (vc : CacheManager CachedVideoData) (maxR : Int) : List (String × Nat) := []

/-! ## Catalog discovery merge (lines 548-583)

The YT Music attempt fills ids (an exception leaves it empty); when ids is
still short of max_results the aiotube supplement runs, deduplicating
normalized ids against a seen set initialised from ids; an aiotube exception
with no ids at all aborts the request with a 500 error.  The two network
calls are parameters: an Except value holds either the returned candidate
list or the exception detail string. -/

/-- Outcome of the discovery phase of one search request: either the HTTP
500 error response with its detail string, or the merged candidate list. -/
inductive SearchOutcome
  | err500 (details : String)
  | okIds (ids : List String)
deriving DecidableEq

/-- The clean-and-dedupe fold of lines 566-572: normalize each supplemental
id and append it unless the seen set (initialised from ids) already holds
it. -/
def dedupeNew (ids : List String) (more : List String) : List String :=
  (more.foldl
    (fun (acc : List String × List String) vid =>
      match extract_video_id vid with
      | some cid => if containsStr acc.1 cid then acc else (cid :: acc.1, acc.2 ++ [cid])
      | none => acc)
    (ids, ([] : List String))).2

/-- The discovery phase (lines 548-583): ytmRes is the outcome of the
ytmusic_discover call (an exception leaves ids empty), aioRes the outcome of
the aiotube supplement, consulted only when ids is shorter than
max_results. -/
def searchDiscover (ytmRes : Except String (List String))
    (aioRes : Except String (List String)) (maxR : Int) : SearchOutcome :=
  let ids : List String := match ytmRes with | .ok l => l | .error _ => []
  if (ids.length : Int) < maxR then
    match aioRes with
    | .ok more => .okIds (ids ++ dedupeNew ids more)
    | .error e => if ids.isEmpty then .err500 e else .okIds ids
  else .okIds ids

/-! ## Response-cache frontend of the search endpoint (lines 515-546)

The query is augmented with a music hint, and the response cache is
consulted under a key computed from the augmented query and max_results
alone.  The code hashes the key string with md5 (line 539); the digest step
is omitted here, the key being determined by the hashed string alone. -/

/-- Query augmentation of line 535: append the music hint unless the query
already mentions music (case-insensitively). -/
def augmented_query (q : String) : String :=
  if strContains (strToLower q) "music" then q else q ++ " music"

/-- The string hashed into the response-cache key at line 539: the augmented
query and max_results, and nothing else. -/
def search_cache_key (search_query : String) (maxR : Int) : String :=
  search_query ++ ":" ++ toString maxR

/-- The response-cache consultation of lines 539-546.  The
verified_only flag of the request is part of the request shape but does not reach the key
computation, which is the content of the key-collision claim. -/
def search_frontend_cache_lookup (sc : CacheManager β) (now : Nat) (q : String)
    (maxR : Int) (verified_only : Bool) : Option β × CacheManager β :=
  sc.get now (search_cache_key (augmented_query q) maxR)

/-! ## Streaming proxy status and header handling (lines 806-888)

The part of audio_proxy past URL resolution is embedded as a function of the
client Range header and the upstream response.  raise_for_status of the
requests library raises exactly for status codes in [400, 600), which the
except clause converts to the 502 error response; the relayed status is the
upstream status when it is 200 or 206 and 200 otherwise. -/

/-- An upstream response: status code and headers. -/
structure UpstreamResponse where
  status : Nat
  headers : List (String × String)
deriving DecidableEq

/-- The relayed response: status code and headers (the body is streamed). -/
structure ProxyResponse where
  status : Nat
  headers : List (String × String)
deriving DecidableEq

/-- Header lookup in an ordered header list. -/
def lookupHdr (hs : List (String × String)) (k : String) : Option String :=
  match hs with
  | [] => none
  | (k2, v) :: rest => if k2 == k then some v else lookupHdr rest k

/-- The enhanced request headers of lines 836-845, with the client Range
header appended verbatim when present. -/
def forwardedHeaders (range : Option String) : List (String × String) :=
  [("User-Agent", "Mozilla/5.0 (Windows NT 10.0; Win64; x64) AppleWebKit/537.36 (KHTML, like Gecko) Chrome/91.0.4472.124 Safari/537.36"),
   ("Accept", "audio/webm,audio/ogg,audio/wav,audio/*;q=0.9,application/ogg;q=0.7,video/*;q=0.6,*/*;q=0.5"),
   ("Accept-Language", "en-US,en;q=0.5")] ++
    (match range with | some r => [("Range", r)] | none => [])

/-- The upstream headers copied through when present (line 867). -/
def passthroughHeaderNames : List String :=
  ["Content-Length", "Content-Range", "Last-Modified", "ETag"]

/-- The outbound headers of lines 856-869: fixed streaming and CORS headers,
content type defaulted to audio/mpeg, and passthrough of the four upstream
headers when present. -/
def proxyResponseHeaders (u : UpstreamResponse) : List (String × String) :=
  [("Content-Type", (lookupHdr u.headers "Content-Type").getD "audio/mpeg"),
   ("Accept-Ranges", "bytes"),
   ("Cache-Control", "public, max-age=3600"),
   ("Access-Control-Allow-Origin", "*"),
   ("Access-Control-Allow-Headers", "Range, Content-Type"),
   ("Access-Control-Allow-Methods", "GET, HEAD, OPTIONS")] ++
    passthroughHeaderNames.filterMap (fun h => (lookupHdr u.headers h).map (fun v => (h, v)))

/-- Status and header handling of the proxy (lines 847-888): a status in
[400, 600) raises in raise_for_status and becomes the 502 error response;
any other status is relayed, as itself when 200 or 206 and as 200
otherwise. -/
def audioProxyRelay (u : UpstreamResponse) : Except Nat ProxyResponse :=
  if 400 ≤ u.status ∧ u.status < 600 then .error 502
  else .ok { status := if u.status = 200 ∨ u.status = 206 then u.status else 200,
             headers := proxyResponseHeaders u }

/-! ## Concrete instances used in witnesses and counterexamples -/

/-- An empty cache with the configuration of video_cache (line 212). -/
def videoCache0 : CacheManager CachedVideoData :=
  { max_size := 1000, default_ttl := 1800, cache := [] }

/-- An empty cache over natural-number payloads with the configuration of
video_cache. -/
def natCache0 : CacheManager Nat :=
  { max_size := 1000, default_ttl := 1800, cache := [] }

/-- A cache entry with the given access time and expiry over payload 0. -/
def natEntry (la exp : Nat) : CacheEntry Nat :=
  { data := 0, created_at := 0, last_accessed := la, expires_at := exp, access_count := 1 }

/-- A full eleven-entry cache with max_size 11: the key x is expired (its
expiry 1 lies before the write instant 20) but was accessed most recently
(at 50); the ten keys b1 to b10 are unexpired (expiry 1000) and were
accessed at 1 to 10. -/
def lruProbeCache : CacheManager Nat :=
  { max_size := 11, default_ttl := 300,
    cache :=
      [("x", natEntry 50 1),
       ("b1", natEntry 1 1000), ("b2", natEntry 2 1000), ("b3", natEntry 3 1000),
       ("b4", natEntry 4 1000), ("b5", natEntry 5 1000), ("b6", natEntry 6 1000),
       ("b7", natEntry 7 1000), ("b8", natEntry 8 1000), ("b9", natEntry 9 1000),
       ("b10", natEntry 10 1000)] }

/-- Flags of a probe that the hard filter rejects: a two-hour live stream. -/
def rejectedProbeFlags : Flags :=
  { duration := 7200, is_live := true, is_music_cat := false, verified := false,
    embeddable := true, is_shorts_url := false, title_bad := false, title_good := false,
    channel_id := "", title := "", cats := [] }

/-- Flags of a probe whose duration 4000 exceeds the one-hour ceiling and
triggers no earlier rule. -/
def tooLongFlags : Flags :=
  { duration := 4000, is_live := false, is_music_cat := false, verified := false,
    embeddable := true, is_shorts_url := false, title_bad := false, title_good := false,
    channel_id := "", title := "", cats := [] }

/-- Probe info with duration 10, otherwise unremarkable. -/
def shortInfo : VideoInfo :=
  { title := "Some Song", categories := [], duration := 10,
    webpage_url := "https://www.youtube.com/watch?v=abcdefghijk", uploader_badges := [],
    channel_id := "UCother", is_live := false, was_live := false, live_status := "not_live",
    is_embed_allowed := true, age_limit := 0 }

/-- Probe info of the acceptance test vector: duration 200, the music
category, embeddable, and the title Artist - Song (Official Audio). -/
def acceptInfo : VideoInfo :=
  { title := "Artist - Song (Official Audio)", categories := ["music"], duration := 200,
    webpage_url := "https://www.youtube.com/watch?v=abcdefghijk", uploader_badges := [],
    channel_id := "UCother", is_live := false, was_live := false, live_status := "not_live",
    is_embed_allowed := true, age_limit := 0 }

/-- Three bare candidate identifiers. -/
def threeIds : List String := ["aaaaaaaaaaa", "bbbbbbbbbbb", "ccccccccccc"]

/-- A concrete 206 upstream response with a content range. -/
def upstream206 : UpstreamResponse :=
  { status := 206,
    headers := [("Content-Type", "audio/webm"), ("Content-Range", "bytes 100-199/1000"),
                ("Content-Length", "100")] }

/-- A concrete 204 upstream response. -/
def upstream204 : UpstreamResponse := { status := 204, headers := [] }

/-- A concrete 404 upstream response. -/
def upstream404 : UpstreamResponse := { status := 404, headers := [] }

/-! ## Helper lemmas about the generic machinery -/

theorem containsStr_iff (l : List String) (s : String) : containsStr l s = true ↔ s ∈ l := by
  simp [containsStr, List.any_eq_true]

theorem insSorted_perm (le : α → α → Bool) (x : α) (l : List α) :
    (insSorted le x l).Perm (x :: l) := by
  induction l with
  | nil => exact List.Perm.refl _
  | cons y ys ih =>
    by_cases h : le x y = true
    · rw [insSorted, if_pos h]
    · rw [insSorted, if_neg h]
      exact (ih.cons y).trans (List.Perm.swap x y ys)

theorem isort_perm (le : α → α → Bool) (l : List α) : (isort le l).Perm l := by
  induction l with
  | nil => exact List.Perm.refl _
  | cons x xs ih => exact (insSorted_perm le x (isort le xs)).trans (ih.cons x)

theorem pairwise_insSorted (le : α → α → Bool)
    (htot : ∀ a b, le a b = true ∨ le b a = true)
    (htr : ∀ a b c, le a b = true → le b c = true → le a c = true)
    (x : α) (l : List α) (hl : l.Pairwise (fun a b => le a b = true)) :
    (insSorted le x l).Pairwise (fun a b => le a b = true) := by
  induction l with
  | nil => simp [insSorted]
  | cons y ys ih =>
    rcases List.pairwise_cons.mp hl with ⟨hy, hys⟩
    by_cases h : le x y = true
    · rw [insSorted, if_pos h]
      refine List.pairwise_cons.mpr ⟨?_, hl⟩
      intro z hz
      rcases List.mem_cons.mp hz with rfl | hz2
      · exact h
      · exact htr x y z h (hy z hz2)
    · rw [insSorted, if_neg h]
      refine List.pairwise_cons.mpr ⟨?_, ih hys⟩
      intro z hz
      have hz3 : z = x ∨ z ∈ ys := by
        have := (insSorted_perm le x ys).mem_iff.mp hz
        simpa using this
      rcases hz3 with rfl | hz4
      · rcases htot z y with h1 | h2
        · exact absurd h1 h
        · exact h2
      · exact hy z hz4

theorem pairwise_isort (le : α → α → Bool)
    (htot : ∀ a b, le a b = true ∨ le b a = true)
    (htr : ∀ a b c, le a b = true → le b c = true → le a c = true)
    (l : List α) : (isort le l).Pairwise (fun a b => le a b = true) := by
  induction l with
  | nil => simp [isort]
  | cons x xs ih => exact pairwise_insSorted le htot htr x (isort le xs) ih

theorem filter_insSorted (le : α → α → Bool) (p : α → Bool) (x : α) (l : List α)
    (hkeep : ∀ y ∈ l, p x = true → p y = true → le x y = true) :
    (insSorted le x l).filter p = if p x then x :: l.filter p else l.filter p := by
  induction l with
  | nil => cases hpx : p x <;> simp [insSorted, List.filter_cons, hpx]
  | cons y ys ih =>
    have hkeep2 : ∀ z ∈ ys, p x = true → p z = true → le x z = true :=
      fun z hz => hkeep z (List.mem_cons_of_mem y hz)
    by_cases h : le x y = true
    · rw [insSorted, if_pos h]
      by_cases hpx : p x = true
      · simp [List.filter_cons, hpx]
      · simp [List.filter_cons, hpx]
    · rw [insSorted, if_neg h]
      by_cases hpx : p x = true
      · by_cases hpy : p y = true
        · exact absurd (hkeep y (List.mem_cons_self y ys) hpx hpy) h
        · simp [List.filter_cons, hpx, hpy, ih hkeep2]
      · by_cases hpy : p y = true
        · simp [List.filter_cons, hpx, hpy, ih hkeep2]
        · simp [List.filter_cons, hpx, hpy, ih hkeep2]

theorem filter_isort (le : α → α → Bool) (p : α → Bool)
    (hties : ∀ a b, p a = true → p b = true → le a b = true) (l : List α) :
    (isort le l).filter p = l.filter p := by
  induction l with
  | nil => rfl
  | cons x xs ih =>
    rw [isort, filter_insSorted le p x (isort le xs) (fun y _ hpx hpy => hties x y hpx hpy),
      ih, List.filter_cons]

/-! ## Helper lemmas about the cache embedding -/

theorem lookupEntry_insertOrReplace (l : List (String × CacheEntry α)) (k : String)
    (en : CacheEntry α) : lookupEntry (insertOrReplace l k en) k = some en := by
  induction l with
  | nil => simp [insertOrReplace, lookupEntry]
  | cons hd tl ih =>
    obtain ⟨k2, e2⟩ := hd
    by_cases h : (k2 == k) = true
    · simp [insertOrReplace, h, lookupEntry]
    · simp [insertOrReplace, h, lookupEntry, ih]

theorem length_insertOrReplace_le (l : List (String × CacheEntry α)) (k : String)
    (en : CacheEntry α) : (insertOrReplace l k en).length ≤ l.length + 1 := by
  induction l with
  | nil => simp [insertOrReplace]
  | cons hd tl ih =>
    obtain ⟨k2, e2⟩ := hd
    cases h : (k2 == k)
    · simp only [insertOrReplace, h, Bool.false_eq_true, if_false, List.length_cons]
      omega
    · simp [insertOrReplace, h]

theorem mem_keys_insertOrReplace (l : List (String × CacheEntry α)) (k : String)
    (en : CacheEntry α) (x : String) :
    x ∈ (insertOrReplace l k en).map Prod.fst ↔ x ∈ l.map Prod.fst ∨ x = k := by
  induction l with
  | nil => simp [insertOrReplace]
  | cons hd tl ih =>
    obtain ⟨k2, e2⟩ := hd
    cases h : (k2 == k)
    · simp only [insertOrReplace, h, Bool.false_eq_true, if_false, List.map_cons,
        List.mem_cons, ih]
      tauto
    · have hk : k2 = k := by simpa using h
      subst hk
      simp only [insertOrReplace, h, if_true, List.map_cons, List.mem_cons]
      tauto

theorem nodup_keys_insertOrReplace (l : List (String × CacheEntry α)) (k : String)
    (en : CacheEntry α) (h : (l.map Prod.fst).Nodup) :
    ((insertOrReplace l k en).map Prod.fst).Nodup := by
  induction l with
  | nil => simp [insertOrReplace]
  | cons hd tl ih =>
    obtain ⟨k2, e2⟩ := hd
    simp only [List.map_cons, List.nodup_cons] at h
    cases hk : (k2 == k)
    · have hne : k2 ≠ k := by simpa using hk
      simp only [insertOrReplace, hk, Bool.false_eq_true, if_false, List.map_cons,
        List.nodup_cons]
      refine ⟨?_, ih h.2⟩
      intro hmem
      rcases (mem_keys_insertOrReplace tl k en k2).mp hmem with h1 | h1
      · exact h.1 h1
      · exact hne h1
    · have hkk : k2 = k := by simpa using hk
      subst hkk
      simp only [insertOrReplace, hk, if_true, List.map_cons, List.nodup_cons]
      exact ⟨h.1, h.2⟩

theorem lookupEntry_filter_of_pred (l : List (String × CacheEntry α)) (k : String)
    (en : CacheEntry α) (p : String × CacheEntry α → Bool)
    (hfound : lookupEntry l k = some en) (hp : p (k, en) = true) :
    lookupEntry (l.filter p) k = some en := by
  induction l with
  | nil => simp [lookupEntry] at hfound
  | cons hd tl ih =>
    obtain ⟨k2, e2⟩ := hd
    by_cases h : (k2 == k) = true
    · have hk : k2 = k := by simpa using h
      subst hk
      rw [lookupEntry, if_pos h] at hfound
      obtain rfl : e2 = en := by simpa using hfound
      rw [List.filter_cons, if_pos hp, lookupEntry, if_pos h]
    · rw [lookupEntry, if_neg (by simpa using h)] at hfound
      rw [List.filter_cons]
      by_cases hp2 : p (k2, e2) = true
      · rw [if_pos hp2, lookupEntry, if_neg (by simpa using h)]
        exact ih hfound
      · rw [if_neg hp2]
        exact ih hfound

theorem lookupEntry_filter_self_removed (l : List (String × CacheEntry α)) (k : String) :
    lookupEntry (l.filter (fun e => !(e.1 == k))) k = none := by
  induction l with
  | nil => rfl
  | cons hd tl ih =>
    obtain ⟨k2, e2⟩ := hd
    by_cases h : (k2 == k) = true
    · simp only [List.filter_cons, h, Bool.not_true, if_false]
      exact ih
    · simp only [List.filter_cons, h, Bool.not_false, if_true, lookupEntry, h, if_false]
      exact ih

theorem cleanupExpired_max_size (c : CacheManager α) (now : Nat) :
    (c.cleanupExpired now).max_size = c.max_size := rfl

theorem cleanupLru_max_size (c : CacheManager α) : c.cleanupLru.max_size = c.max_size := by
  unfold CacheManager.cleanupLru
  split <;> rfl

theorem setSweep_max_size (c : CacheManager α) (now : Nat) :
    (c.setSweep now).max_size = c.max_size := by
  unfold CacheManager.setSweep
  split <;> rfl

theorem setEvict_max_size (c : CacheManager α) : c.setEvict.max_size = c.max_size := by
  unfold CacheManager.setEvict
  split
  · exact cleanupLru_max_size c
  · rfl

theorem set_max_size (c : CacheManager α) (now : Nat) (k : String) (v : α) (ttl : Option Nat) :
    (c.set now k v ttl).max_size = c.max_size := by
  unfold CacheManager.set
  rw [setEvict_max_size, setSweep_max_size]
  rfl

theorem filter_take_removed_eq_nil (l : List (String × CacheEntry α)) (n : Nat) :
    (l.take n).filter (fun e => !(containsStr ((l.take n).map Prod.fst) e.1)) = [] := by
  rw [List.filter_eq_nil]
  intro a ha
  have hc : containsStr ((l.take n).map Prod.fst) a.1 = true :=
    (containsStr_iff _ _).mpr (List.mem_map_of_mem Prod.fst ha)
  rw [hc]
  decide

theorem cleanupLru_length_le (c : CacheManager α) : c.cleanupLru.cache.length ≤ c.max_size := by
  unfold CacheManager.cleanupLru
  by_cases h : c.cache.length ≤ c.max_size
  · rw [if_pos h]
    exact h
  · rw [if_neg h]
    push_neg at h
    have hsortlen : (isort lruLe c.cache).length = c.cache.length :=
      (isort_perm lruLe c.cache).length_eq
    set sorted := isort lruLe c.cache with hsorted
    set etr := c.cache.length - c.max_size + 10 with hetr
    set krem := (sorted.take etr).map Prod.fst with hkrem
    have hlen1 :
        (c.cache.filter (fun e => !(containsStr krem e.1))).length
          = (sorted.filter (fun e => !(containsStr krem e.1))).length :=
      ((isort_perm lruLe c.cache).filter _).length_eq.symm
    have hsplit : sorted.take etr ++ sorted.drop etr = sorted := List.take_append_drop etr sorted
    have htake : (sorted.take etr).filter (fun e => !(containsStr krem e.1)) = [] := by
      rw [hkrem]
      exact filter_take_removed_eq_nil sorted etr
    have hfin :
        (sorted.filter (fun e => !(containsStr krem e.1))).length
          ≤ (sorted.drop etr).length := by
      conv_lhs => rw [← hsplit]
      rw [List.filter_append, List.length_append, htake]
      simp only [List.length_nil, Nat.zero_add]
      exact List.length_filter_le _ _
    have hdroplen : (sorted.drop etr).length = c.cache.length - etr := by
      rw [List.length_drop, hsortlen]
    simp only [hlen1]
    omega

theorem setEvict_length_le (c : CacheManager α) : c.setEvict.cache.length ≤ c.max_size := by
  unfold CacheManager.setEvict
  by_cases h : c.cache.length > c.max_size
  · rw [if_pos h]
    exact cleanupLru_length_le c
  · rw [if_neg h]
    omega

theorem set_length_le (c : CacheManager α) (now : Nat) (k : String) (v : α) (ttl : Option Nat) :
    (c.set now k v ttl).cache.length ≤ c.max_size := by
  unfold CacheManager.set
  have h1 := setEvict_length_le ((c.setInsert now k v ttl).setSweep now)
  have h2 : ((c.setInsert now k v ttl).setSweep now).max_size = c.max_size := by
    rw [setSweep_max_size]
    rfl
  omega

theorem newEntry_expires_at (c : CacheManager α) (now : Nat) (v : α) (t : Nat) (ht : 0 < t) :
    (c.newEntry now v (some t)).expires_at = now + t := by
  unfold CacheManager.newEntry
  simp [Nat.pos_iff_ne_zero.mp ht]

theorem setSweep_lookup (c : CacheManager α) (now : Nat) (k : String) (en : CacheEntry α)
    (hfound : lookupEntry c.cache k = some en) (hlive : now ≤ en.expires_at) :
    lookupEntry (c.setSweep now).cache k = some en := by
  unfold CacheManager.setSweep
  split
  · unfold CacheManager.cleanupExpired
    exact lookupEntry_filter_of_pred c.cache k en _ hfound (by simp [Nat.not_lt.mpr hlive])
  · exact hfound

theorem setSweep_length_le (c : CacheManager α) (now : Nat) :
    (c.setSweep now).cache.length ≤ c.cache.length := by
  unfold CacheManager.setSweep
  split
  · exact List.length_filter_le _ _
  · exact le_rfl

theorem setEvict_of_le (c : CacheManager α) (h : c.cache.length ≤ c.max_size) :
    c.setEvict = c := by
  unfold CacheManager.setEvict
  rw [if_neg (by omega)]

/-- With room left in the store, a set leaves its fresh entry in place: the
insert puts it there, the expiry sweep cannot remove an entry that expires in
the future, and the LRU sweep does not run below max_size. -/
theorem set_lookup_of_room (c : CacheManager α) (now : Nat) (k : String) (v : α)
    (ttl : Option Nat) (hsize : c.cache.length < c.max_size)
    (hlive : now ≤ (c.newEntry now v ttl).expires_at) :
    lookupEntry (c.set now k v ttl).cache k = some (c.newEntry now v ttl) := by
  unfold CacheManager.set
  have hins : lookupEntry (c.setInsert now k v ttl).cache k = some (c.newEntry now v ttl) :=
    lookupEntry_insertOrReplace c.cache k (c.newEntry now v ttl)
  have hinslen : (c.setInsert now k v ttl).cache.length ≤ c.cache.length + 1 :=
    length_insertOrReplace_le c.cache k (c.newEntry now v ttl)
  have hsweep :
      lookupEntry ((c.setInsert now k v ttl).setSweep now).cache k = some (c.newEntry now v ttl) := by
    have : (c.newEntry now v ttl).expires_at = ((c.setInsert now k v ttl).newEntry now v ttl).expires_at := rfl
    exact setSweep_lookup (c.setInsert now k v ttl) now k (c.newEntry now v ttl) hins hlive
  have hsweeplen :
      ((c.setInsert now k v ttl).setSweep now).cache.length ≤ c.max_size := by
    have := setSweep_length_le (c.setInsert now k v ttl) now
    omega
  have hmax : ((c.setInsert now k v ttl).setSweep now).max_size = c.max_size := by
    rw [setSweep_max_size]
    rfl
  rw [setEvict_of_le _ (by omega)]
  exact hsweep

/-- Reading back a key just written with a positive ttl: the read succeeds
exactly while the elapsed time has not strictly passed the ttl, and on the
strict-expiry path the entry is also deleted. -/
theorem get_after_set_live (c : CacheManager α) (k : String) (v : α) (t now0 now1 : Nat)
    (hsize : c.cache.length < c.max_size) (ht : 0 < t) (hlive : now1 ≤ now0 + t) :
    ((c.set now0 k v (some t)).get now1 k).1 = some v := by
  have hexp := newEntry_expires_at c now0 v t ht
  have hl := set_lookup_of_room c now0 k v (some t) hsize (by omega)
  simp only [CacheManager.get, hl]
  rw [if_neg (by omega)]
  rfl

theorem get_after_set_expired (c : CacheManager α) (k : String) (v : α) (t now0 now1 : Nat)
    (hsize : c.cache.length < c.max_size) (ht : 0 < t) (hexp : now0 + t < now1) :
    ((c.set now0 k v (some t)).get now1 k).1 = none ∧
      lookupEntry (((c.set now0 k v (some t)).get now1 k).2).cache k = none := by
  have hexp2 := newEntry_expires_at c now0 v t ht
  have hl := set_lookup_of_room c now0 k v (some t) hsize (by omega)
  simp only [CacheManager.get, hl]
  rw [if_pos (by omega)]
  exact ⟨rfl, lookupEntry_filter_self_removed _ k⟩

theorem applySets_cons (c : CacheManager α) (op : SetOp α) (rest : List (SetOp α)) :
    applySets c (op :: rest) = applySets (c.set op.now op.key op.data op.ttl) rest := rfl

/-! ## Claim theorems -/

/-- Claim C2, counterexample.  The claim states that a get performed at
elapsed time greater than or equal to the ttl returns absent; but expiry in
CacheManager.get is strict (now greater than expires_at), so at elapsed time
exactly equal to the ttl the stored value is still returned: set at time 0
with ttl 5 followed by get at time 5 yields the value 42, not absent. -/
theorem c2_get_at_exact_ttl_counterexample :
    (((⟨1000, 300, []⟩ : CacheManager Nat).set 0 "k" 42 (some 5)).get 5 "k").1 = some 42 := by
  decide

/-- Claim C2, amended: for every key, value and positive ttl t, and a store
with room for the write, a get at elapsed time at most t returns the stored
value, and a get at elapsed time strictly greater than t returns absent and
deletes the entry (the expiry comparison of the code is strict). -/
theorem c2_get_after_set_ttl (c : CacheManager α) (k : String) (v : α) (t now e : Nat)
    (hsize : c.cache.length < c.max_size) (ht : 0 < t) :
    (e ≤ t → ((c.set now k v (some t)).get (now + e) k).1 = some v) ∧
      (t < e → ((c.set now k v (some t)).get (now + e) k).1 = none ∧
        lookupEntry (((c.set now k v (some t)).get (now + e) k).2).cache k = none) := by
  constructor
  · intro he
    exact get_after_set_live c k v t now (now + e) hsize ht (by omega)
  · intro he
    exact get_after_set_expired c k v t now (now + e) hsize ht (by omega)

/-- Claim C2, witness: the amended theorem applied to a concrete store,
value and ttl. -/
theorem c2_get_after_set_ttl_witness :
    (natCache0.cache.length < natCache0.max_size ∧ 0 < 5) ∧
      (3 ≤ 5 → ((natCache0.set 0 "k" 42 (some 5)).get (0 + 3) "k").1 = some 42) ∧
      (5 < 3 → ((natCache0.set 0 "k" 42 (some 5)).get (0 + 3) "k").1 = none ∧
        lookupEntry (((natCache0.set 0 "k" 42 (some 5)).get (0 + 3) "k").2).cache "k" = none) :=
  ⟨⟨by decide, by decide⟩, c2_get_after_set_ttl natCache0 "k" 42 5 0 3 (by decide) (by decide)⟩

/-- Claim C3: after any nonempty sequence of set calls the store holds at
most max_size entries, because the eviction pass of each set runs
synchronously and trims the store to max_size minus 10 on overflow. -/
theorem c3_size_bounded_after_sets (c : CacheManager α) (ops : List (SetOp α))
    (hne : ops ≠ []) :
    (applySets c ops).cache.length ≤ (applySets c ops).max_size := by
  induction ops generalizing c with
  | nil => exact absurd rfl hne
  | cons op rest ih =>
    cases rest with
    | nil =>
      rw [applySets_cons]
      have h1 := set_length_le c op.now op.key op.data op.ttl
      have h2 := set_max_size c op.now op.key op.data op.ttl
      simp only [applySets, List.foldl_nil]
      omega
    | cons op2 rest2 =>
      rw [applySets_cons]
      exact ih (c.set op.now op.key op.data op.ttl) (by simp)

/-- Claim C3, witness: the bound applied to a concrete one-write sequence. -/
theorem c3_size_bounded_witness :
    ([({ now := 0, key := "k", data := 7, ttl := none } : SetOp Nat)] ≠ []) ∧
      (applySets natCache0 [({ now := 0, key := "k", data := 7, ttl := none } : SetOp Nat)]).cache.length ≤
        (applySets natCache0 [({ now := 0, key := "k", data := 7, ttl := none } : SetOp Nat)]).max_size :=
  ⟨by decide,
   c3_size_bounded_after_sets natCache0 [{ now := 0, key := "k", data := 7, ttl := none }] (by decide)⟩

theorem cleanupLru_mem_keys (d : CacheManager α) (key : String)
    (hnd : (d.cache.map Prod.fst).Nodup) (hover : d.cache.length > d.max_size) :
    (key ∈ d.cleanupLru.cache.map Prod.fst ↔
      key ∈ ((isort lruLe d.cache).drop (d.cache.length - d.max_size + 10)).map Prod.fst) := by
  unfold CacheManager.cleanupLru
  rw [if_neg (Nat.not_le.mpr hover)]
  show key ∈ (d.cache.filter (fun e =>
      !(containsStr (((isort lruLe d.cache).take (d.cache.length - d.max_size + 10)).map Prod.fst) e.1))).map Prod.fst ↔ _
  set sorted := isort lruLe d.cache with hsorted
  set etr := d.cache.length - d.max_size + 10 with hetr
  have hperm : sorted.Perm d.cache := isort_perm lruLe d.cache
  have hndall : (sorted.map Prod.fst).Nodup := ((hperm.map Prod.fst).nodup_iff).mpr hnd
  have hsplit : sorted.take etr ++ sorted.drop etr = sorted := List.take_append_drop etr sorted
  have hndapp : ((sorted.take etr).map Prod.fst ++ (sorted.drop etr).map Prod.fst).Nodup := by
    rw [← List.map_append, hsplit]
    exact hndall
  have hdisj := (List.nodup_append.mp hndapp).2.2
  constructor
  · intro hmem
    rcases List.mem_map.mp hmem with ⟨e, he, rfl⟩
    have hef := List.mem_filter.mp he
    have hein : e ∈ sorted := hperm.mem_iff.mpr hef.1
    have hnotrem : ¬ (e.1 ∈ (sorted.take etr).map Prod.fst) := by
      intro hin
      have hcs := (containsStr_iff _ _).mpr hin
      have := hef.2
      rw [hcs] at this
      simp at this
    have hein2 : e ∈ sorted.take etr ++ sorted.drop etr := by
      rw [hsplit]
      exact hein
    rcases List.mem_append.mp hein2 with h1 | h1
    · exact absurd (List.mem_map_of_mem Prod.fst h1) hnotrem
    · exact List.mem_map_of_mem Prod.fst h1
  · intro hmem
    rcases List.mem_map.mp hmem with ⟨e, he, rfl⟩
    have hein : e ∈ sorted := by
      rw [← hsplit]
      exact List.mem_append_right _ he
    have hedc : e ∈ d.cache := hperm.mem_iff.mp hein
    have hnotrem : ¬ (e.1 ∈ (sorted.take etr).map Prod.fst) := fun hin =>
      hdisj hin (List.mem_map_of_mem Prod.fst he)
    refine List.mem_map_of_mem Prod.fst (List.mem_filter.mpr ⟨hedc, ?_⟩)
    have hfalse : containsStr ((sorted.take etr).map Prod.fst) e.1 = false := by
      cases hcs : containsStr ((sorted.take etr).map Prod.fst) e.1
      · rfl
      · exact absurd ((containsStr_iff _ _).mp hcs) hnotrem
    rw [hfalse]
    rfl

/-- Claim C4, counterexample.  With max_size 11 and eleven entries, writing
key c (access time 20, unexpired) leaves twelve entries; twelve is not a
multiple of 50, so no expiry sweep runs, and the LRU sweep ranks all twelve
entries, expired or not, by last_accessed.  The expired entry x (expiry 1,
before the write instant 20, but accessed most recently at 50) is the sole
survivor, while the ten unexpired entries and even the fresh write c are all
evicted; the claim instead requires expired entries to be swept first and
the eviction to act only among unexpired entries. -/
theorem c4_expired_entry_survives_counterexample :
    (lruProbeCache.set 20 "c" 0 (some 100)).cache.map Prod.fst = ["x"] ∧
      20 > (natEntry 50 1).expires_at ∧ ¬ (20 > (natEntry 1 1000).expires_at) := by
  decide

/-- Claim C4, amended: on a write that leaves the store over max_size, the
expiry sweep runs only when the post-insert size is a multiple of 50; when
it is not, no sweep runs and the LRU eviction ranks all entries, expired
ones included, by last-accessed time, keeping exactly the keys in the final
max_size minus 10 positions of that order (for a store with distinct
keys). -/
theorem c4_lru_ranks_all_entries (c : CacheManager α) (now : Nat) (k : String) (v : α)
    (ttl : Option Nat) (key : String)
    (hnd : (c.cache.map Prod.fst).Nodup)
    (hover : (c.setInsert now k v ttl).cache.length > c.max_size)
    (hmod : ¬ (c.setInsert now k v ttl).cache.length % 50 = 0) :
    (key ∈ (c.set now k v ttl).cache.map Prod.fst ↔
      key ∈ ((isort lruLe (c.setInsert now k v ttl).cache).drop
        ((c.setInsert now k v ttl).cache.length - c.max_size + 10)).map Prod.fst) := by
  have hndi : ((c.setInsert now k v ttl).cache.map Prod.fst).Nodup :=
    nodup_keys_insertOrReplace c.cache k (c.newEntry now v ttl) hnd
  have hset : c.set now k v ttl = (c.setInsert now k v ttl).cleanupLru := by
    unfold CacheManager.set
    have hsw : (c.setInsert now k v ttl).setSweep now = c.setInsert now k v ttl := by
      unfold CacheManager.setSweep
      exact if_neg hmod
    rw [hsw]
    unfold CacheManager.setEvict
    exact if_pos hover
  rw [hset]
  exact cleanupLru_mem_keys (c.setInsert now k v ttl) key hndi hover

/-- Claim C4, witness: the amended theorem applied to the concrete
twelve-entry overflow, checking the key x. -/
theorem c4_lru_ranks_all_entries_witness :
    ((lruProbeCache.cache.map Prod.fst).Nodup ∧
      (lruProbeCache.setInsert 20 "c" 0 (some 100)).cache.length > lruProbeCache.max_size ∧
      ¬ (lruProbeCache.setInsert 20 "c" 0 (some 100)).cache.length % 50 = 0) ∧
      ("x" ∈ (lruProbeCache.set 20 "c" 0 (some 100)).cache.map Prod.fst ↔
        "x" ∈ ((isort lruLe (lruProbeCache.setInsert 20 "c" 0 (some 100)).cache).drop
          ((lruProbeCache.setInsert 20 "c" 0 (some 100)).cache.length - lruProbeCache.max_size + 10)).map Prod.fst) :=
  ⟨⟨by decide, by decide, by decide⟩,
   c4_lru_ranks_all_entries lruProbeCache 20 "c" 0 (some 100) "x" (by decide) (by decide) (by decide)⟩

/-- Claim C7, counterexample.  The input hello matches no recognizable
shape: it is not a bare id and none of the extraction patterns matches; the
claim then requires an absent result, but extract_video_id returns the input
itself (the fallback of line 250 returns the first 11 characters, or the
whole input when shorter; only the empty input yields absent). -/
theorem c7_unrecognizable_counterexample :
    matchBareIdPy "hello".data = false ∧
      extractionPatterns.findSome? (fun pat => pat "hello".data) = none ∧
      extract_video_id "hello" = some "hello" := by
  decide

/-- Claim C7, amended: the normalizer recognizes the bare-id shape directly,
otherwise applies the ordered extraction patterns (combined watch, shortlink
and embed alternation, then the generic v= parameter pattern, then the
trailing-path pattern) and returns the first match; on inputs in which
nothing recognizable is found it returns the first 11 characters when the
input is that long, the whole input when shorter and nonempty, and absent
only for empty input.  Stated as equality with the spec-side normalizer. -/
theorem c7_normalize_matches_spec (s : String) : extract_video_id s = normalizeSpec s := by
  unfold extract_video_id normalizeSpec extractionPatterns
  by_cases h0 : s.data.isEmpty
  · simp [h0]
  · by_cases h1 : matchBareIdPy s.data = true
    · simp [h0, h1]
    · cases h2 : scanFor watchAlts s.data <;>
        cases h3 : scanFor vEqAlt s.data <;>
          cases h4 : matchP3 s.data <;>
            simp [h0, h1, h2, h3, h4]

/-- Claim C7 witness: the refinement theorem applied to a canonical watch
URL (no hypotheses are needed; this instance documents the pattern path). -/
theorem c7_normalize_matches_spec_witness :
    extract_video_id "https://www.youtube.com/watch?v=dQw4w9WgXcQ"
      = normalizeSpec "https://www.youtube.com/watch?v=dQw4w9WgXcQ" :=
  c7_normalize_matches_spec "https://www.youtube.com/watch?v=dQw4w9WgXcQ"

/-- Claim C5, counterexample.  A probe with duration 4000 falls under the
too-long rule of the claim (duration above an hour), but the reason string of the code
is too-long-hour-plus, not the claimed too-long. -/
theorem c5_reason_string_counterexample :
    hard_keep false tooLongFlags ≠ (false, "too-long") ∧
      (hard_keep false tooLongFlags).2 = "too-long-hour-plus" ∧
      tooLongFlags.duration > 3600 := by
  decide

/-- Claim C5, amended: hard_keep evaluates its eight rejection rules in the
fixed precedence order too-short, too-long, live, shorts, not-music-category
(only when categories are present), not-embeddable, bad-title, not-verified
(only in verified-only mode), short-circuiting at the first match, with the
reason strings of the code (too-long-hour-plus for the hour ceiling and
shorts-url for the short-form URL shape); a probe of duration 10 is rejected
as too-short and the duration-200 music-category embeddable probe titled
Artist - Song (Official Audio) is kept. -/
theorem c5_hard_filter_precedence :
    (∀ (m : Bool) (f : Flags), hard_keep m f = hardFilterSpec m f) ∧
      hard_keep false (probeFlags shortInfo) = (false, "too-short") ∧
      hard_keep false (probeFlags acceptInfo) = (true, "ok") := by
  refine ⟨?_, by decide, by decide⟩
  intro m f
  unfold hard_keep hardFilterSpec specHardRules
  by_cases h1 : f.duration < MIN_TRACK_SECS
  · simp [h1, List.find?]
  by_cases h2 : f.duration > 3600
  · simp [h1, h2, List.find?]
  by_cases h3 : f.is_live = true
  · simp [h1, h2, h3, List.find?]
  by_cases h4 : f.is_shorts_url = true
  · simp [h1, h2, h3, h4, List.find?]
  by_cases h5 : (!f.cats.isEmpty && !f.is_music_cat) = true
  · simp [h1, h2, h3, h4, h5, List.find?]
  by_cases h6 : (!f.embeddable) = true
  · simp [h1, h2, h3, h4, h5, h6, List.find?]
  by_cases h7 : f.title_bad = true
  · simp [h1, h2, h3, h4, h5, h6, h7, List.find?]
  by_cases h8 : (m && !f.verified) = true
  · simp [h1, h2, h3, h4, h5, h6, h7, h8, List.find?]
  simp [h1, h2, h3, h4, h5, h6, h7, h8, List.find?]

theorem searchLoop_length_le (now : Nat) (maxR : Int) (ids : List String)
    (vc : CacheManager CachedVideoData) (results : List ResultEntry)
    (h : (results.length : Int) < maxR) :
    (((searchLoop now maxR ids vc results).1).length : Int) ≤ maxR := by
  induction ids generalizing vc results with
  | nil =>
    simp only [searchLoop]
    omega
  | cons vid rest ih =>
    rcases hpc : processCandidate now vc vid with ⟨o, vc2⟩
    cases o with
    | none =>
      simp only [searchLoop, hpc]
      exact ih vc2 results h
    | some e =>
      simp only [searchLoop, hpc]
      by_cases hstop : maxR ≤ ((results ++ [e]).length : Int)
      · rw [if_pos hstop]
        simp only [List.length_append, List.length_cons, List.length_nil]
        push_cast
        omega
      · rw [if_neg hstop]
        exact ih vc2 (results ++ [e]) (by omega)

/-- Claim C6, counterexample.  A request with maxResults equal to minus one
still returns one result when candidates exist: the overscan slice
ids[: max_results * 2] is Python slicing with a negative bound, which keeps
the initial segment, and the loop appends a first entry before testing the
break condition; one entry exceeds the requested limit of minus one. -/
theorem c6_negative_limit_counterexample :
    ¬ (((searchResults 1000 threeIds videoCache0 (-1)).length : Int) ≤ -1) := by
  decide

/-- Claim C6, amended: for every request with a nonnegative limit the
results sequence holds at most that many entries, is sorted by nonincreasing
music score, and the sort is stable: for every score value, the entries
carrying that score appear in the same order as in the pre-sort loop output,
of which the result is a permutation. -/
theorem c6_capped_sorted_stable (now : Nat) (ids0 : List String)
    (vc : CacheManager CachedVideoData) (maxR : Int) (s : Int) (h : 0 ≤ maxR) :
    ((searchResults now ids0 vc maxR).length : Int) ≤ maxR ∧
      (searchResults now ids0 vc maxR).Pairwise (fun a b => b.musicScore ≤ a.musicScore) ∧
      (searchResults now ids0 vc maxR).filter (fun e => e.musicScore == s)
        = (searchLoopResults now ids0 vc maxR).filter (fun e => e.musicScore == s) ∧
      (searchResults now ids0 vc maxR).Perm (searchLoopResults now ids0 vc maxR) := by
  have hperm : (searchResults now ids0 vc maxR).Perm (searchLoopResults now ids0 vc maxR) :=
    isort_perm scoreLe _
  refine ⟨?_, ?_, ?_, hperm⟩
  · rw [hperm.length_eq]
    unfold searchLoopResults
    rcases eq_or_lt_of_le h with heq | hpos
    · rw [← heq]
      simp [pyTake, searchLoop]
    · exact searchLoop_length_le now maxR _ vc [] (by simpa using hpos)
  · have hp := pairwise_isort scoreLe
      (fun a b => by
        unfold scoreLe
        rcases le_total b.musicScore a.musicScore with h1 | h1
        · exact Or.inl (decide_eq_true h1)
        · exact Or.inr (decide_eq_true h1))
      (fun a b cc hab hbc => by
        unfold scoreLe at hab hbc ⊢
        exact decide_eq_true (le_trans (of_decide_eq_true hbc) (of_decide_eq_true hab)))
      (searchLoopResults now ids0 vc maxR)
    exact hp.imp (fun hab => of_decide_eq_true hab)
  · exact filter_isort scoreLe _
      (fun a b hpa hpb => by
        unfold scoreLe
        have ha : a.musicScore = s := by simpa using hpa
        have hb : b.musicScore = s := by simpa using hpb
        rw [ha, hb]
        simp)
      _

/-- Claim C6, witness: the amended theorem at a concrete request with limit
2 over three candidates. -/
theorem c6_capped_sorted_stable_witness :
    ((0 : Int) ≤ 2) ∧
      (((searchResults 1000 threeIds videoCache0 2).length : Int) ≤ 2 ∧
        (searchResults 1000 threeIds videoCache0 2).Pairwise
          (fun a b => b.musicScore ≤ a.musicScore) ∧
        (searchResults 1000 threeIds videoCache0 2).filter (fun e => e.musicScore == 3)
          = (searchLoopResults 1000 threeIds videoCache0 2).filter (fun e => e.musicScore == 3) ∧
        (searchResults 1000 threeIds videoCache0 2).Perm
          (searchLoopResults 1000 threeIds videoCache0 2)) :=
  ⟨by decide, c6_capped_sorted_stable 1000 threeIds videoCache0 2 3 (by decide)⟩

/-- Claim C1.  The loop of the search endpoint appends every normalizable
candidate with fabricated metadata (duration 210, score 3): it consults no
probe, so even a candidate whose real probe fails the hard filter (the
hypothesis) is returned, and the filtering statistics stay empty.  The claim
instead requires each candidate to be probed through the extraction engine,
hard-filtered with rejections recorded, and dropped on rejection. -/
theorem c1_loop_bypasses_hard_filter (f : Flags) (hreject : (hard_keep false f).1 = false) :
    (searchResults 1000 ["aaaaaaaaaaa"] videoCache0 5).map ResultEntry.id = ["aaaaaaaaaaa"] ∧
      (searchResults 1000 ["aaaaaaaaaaa"] videoCache0 5).map ResultEntry.duration_seconds = [210] ∧
      (searchResults 1000 ["aaaaaaaaaaa"] videoCache0 5).map ResultEntry.musicScore = [3] ∧
      searchRejectedReasons 1000 ["aaaaaaaaaaa"] videoCache0 5 = [] :=
  ⟨by decide, by decide, by decide, rfl⟩

/-- Claim C1, witness: the probe of a two-hour live stream fails the hard
filter, yet its candidate is returned by the loop with fabricated data. -/
theorem c1_loop_bypasses_hard_filter_witness :
    (hard_keep false rejectedProbeFlags).1 = false ∧
      ((searchResults 1000 ["aaaaaaaaaaa"] videoCache0 5).map ResultEntry.id = ["aaaaaaaaaaa"] ∧
        (searchResults 1000 ["aaaaaaaaaaa"] videoCache0 5).map ResultEntry.duration_seconds = [210] ∧
        (searchResults 1000 ["aaaaaaaaaaa"] videoCache0 5).map ResultEntry.musicScore = [3] ∧
        searchRejectedReasons 1000 ["aaaaaaaaaaa"] videoCache0 5 = []) :=
  ⟨by decide, c1_loop_bypasses_hard_filter rejectedProbeFlags (by decide)⟩

/-- Claim C8: a failure of the YT Music source is non-fatal when aiotube
succeeds (the outcome is a candidate list, never the 500 error); a failure
of aiotube is non-fatal when YT Music yielded candidates (those candidates
are returned); and when both sources fail, with a positive limit so the
supplement is consulted, the request terminates with the 500 error carrying
the aiotube detail, whether the YT Music failure surfaced as an exception or
as an empty list. -/
theorem c8_catalog_failure_handling :
    (∀ (e : String) (more : List String) (maxR : Int),
        ∃ l, searchDiscover (Except.error e) (Except.ok more) maxR = SearchOutcome.okIds l) ∧
      (∀ (ids : List String) (e : String) (maxR : Int), ids ≠ [] →
        searchDiscover (Except.ok ids) (Except.error e) maxR = SearchOutcome.okIds ids) ∧
      (∀ (e e2 : String) (maxR : Int), 0 < maxR →
        searchDiscover (Except.error e) (Except.error e2) maxR = SearchOutcome.err500 e2 ∧
          searchDiscover (Except.ok []) (Except.error e2) maxR = SearchOutcome.err500 e2) := by
  refine ⟨?_, ?_, ?_⟩
  · intro e more maxR
    by_cases h : (0 : Int) < maxR
    · exact ⟨dedupeNew [] more, by simp [searchDiscover, h]⟩
    · exact ⟨[], by simp [searchDiscover, h]⟩
  · intro ids e maxR hne
    by_cases h : ((ids.length : Int) < maxR)
    · simp [searchDiscover, h, List.isEmpty_iff, hne]
    · simp [searchDiscover, h]
  · intro e e2 maxR hpos
    constructor <;> simp [searchDiscover, hpos]

/-- Claim C8, witness: concrete instances of the aiotube-failure cases. -/
theorem c8_catalog_failure_handling_witness :
    (["vvvvvvvvvvv"] ≠ ([] : List String) ∧ (0 : Int) < 5) ∧
      searchDiscover (Except.ok ["vvvvvvvvvvv"]) (Except.error "aiotube down") 5
        = SearchOutcome.okIds ["vvvvvvvvvvv"] ∧
      searchDiscover (Except.error "ytm down") (Except.error "aiotube down") 5
        = SearchOutcome.err500 "aiotube down" :=
  ⟨⟨by decide, by decide⟩,
   c8_catalog_failure_handling.2.1 ["vvvvvvvvvvv"] "aiotube down" 5 (by decide),
   (c8_catalog_failure_handling.2.2 "ytm down" "aiotube down" 5 (by decide)).1⟩

theorem lookupHdr_append (l1 l2 : List (String × String)) (k : String) :
    lookupHdr (l1 ++ l2) k
      = match lookupHdr l1 k with
        | some v => some v
        | none => lookupHdr l2 k := by
  induction l1 with
  | nil => simp [lookupHdr]
  | cons hd tl ih =>
    obtain ⟨k2, v⟩ := hd
    cases h : (k2 == k) <;> simp [lookupHdr, h, ih]

/-- Claim C9, counterexample.  An upstream status 204 lies outside 200 and
206, so the claim requires it to be treated as an upstream fetch failure;
but raise_for_status only raises for statuses from 400, so the proxy relays
the response with status 200 instead of failing. -/
theorem c9_status_204_counterexample :
    (audioProxyRelay upstream204).toOption = some (ProxyResponse.mk 200
        [("Content-Type", "audio/mpeg"), ("Accept-Ranges", "bytes"),
          ("Cache-Control", "public, max-age=3600"), ("Access-Control-Allow-Origin", "*"),
          ("Access-Control-Allow-Headers", "Range, Content-Type"),
          ("Access-Control-Allow-Methods", "GET, HEAD, OPTIONS")]) ∧
      (∀ n : Nat, audioProxyRelay upstream204 ≠ Except.error n) ∧
      ¬ upstream204.status = 200 ∧ ¬ upstream204.status = 206 := by
  refine ⟨by decide, ?_, by decide, by decide⟩
  intro n h
  have h2 : (audioProxyRelay upstream204).toOption = none := by rw [h]; rfl
  have h3 : ¬ (audioProxyRelay upstream204).toOption = none := by decide
  exact h3 h2

/-- Claim C9, amended: the client Range header is forwarded verbatim when
present (and no Range header is fabricated otherwise); an upstream 206 is
relayed as 206 with the four upstream entity headers passed through exactly
when present; an upstream status in [400, 600) becomes the 502 fetch
failure; and any other status outside 200 and 206 is relayed with status
200, not treated as a failure. -/
theorem c9_range_and_status (u : UpstreamResponse) (r : String) :
    (lookupHdr (forwardedHeaders (some r)) "Range" = some r ∧
      lookupHdr (forwardedHeaders none) "Range" = none) ∧
      (u.status = 206 →
        audioProxyRelay u = Except.ok { status := 206, headers := proxyResponseHeaders u } ∧
        lookupHdr (proxyResponseHeaders u) "Content-Range" = lookupHdr u.headers "Content-Range" ∧
        lookupHdr (proxyResponseHeaders u) "Content-Length" = lookupHdr u.headers "Content-Length" ∧
        lookupHdr (proxyResponseHeaders u) "Last-Modified" = lookupHdr u.headers "Last-Modified" ∧
        lookupHdr (proxyResponseHeaders u) "ETag" = lookupHdr u.headers "ETag") ∧
      (400 ≤ u.status → u.status < 600 → audioProxyRelay u = Except.error 502) ∧
      (u.status < 400 → ¬ u.status = 200 → ¬ u.status = 206 →
        audioProxyRelay u = Except.ok { status := 200, headers := proxyResponseHeaders u }) := by
  refine ⟨⟨?_, ?_⟩, ?_, ?_, ?_⟩
  · simp [forwardedHeaders, lookupHdr]
  · simp [forwardedHeaders, lookupHdr]
  · intro h206
    have hns : ¬ (400 ≤ u.status ∧ u.status < 600) := by omega
    refine ⟨?_, ?_, ?_, ?_, ?_⟩
    · unfold audioProxyRelay
      rw [if_neg hns]
      simp [h206]
    all_goals
      cases hCL : lookupHdr u.headers "Content-Length" <;>
        cases hCR : lookupHdr u.headers "Content-Range" <;>
          cases hLM : lookupHdr u.headers "Last-Modified" <;>
            cases hET : lookupHdr u.headers "ETag" <;>
              simp [proxyResponseHeaders, passthroughHeaderNames, List.filterMap_cons,
                hCL, hCR, hLM, hET, lookupHdr, lookupHdr_append]
  · intro h4 h6
    unfold audioProxyRelay
    rw [if_pos ⟨h4, h6⟩]
  · intro hlt h200 h206
    unfold audioProxyRelay
    rw [if_neg (by omega)]
    have : ¬ (u.status = 200 ∨ u.status = 206) := by
      intro hc
      rcases hc with hc | hc
      · exact h200 hc
      · exact h206 hc
    rw [if_neg this]

/-- Claim C9, witness: the amended theorem at a concrete 206 response with a
content range, and at a concrete 404 response. -/
theorem c9_range_and_status_witness :
    (upstream206.status = 206 ∧ 400 ≤ upstream404.status ∧ upstream404.status < 600) ∧
      lookupHdr (forwardedHeaders (some "bytes=100-199")) "Range" = some "bytes=100-199" ∧
      audioProxyRelay upstream206
        = Except.ok { status := 206, headers := proxyResponseHeaders upstream206 } ∧
      lookupHdr (proxyResponseHeaders upstream206) "Content-Range"
        = lookupHdr upstream206.headers "Content-Range" ∧
      audioProxyRelay upstream404 = Except.error 502 :=
  ⟨⟨by decide, by decide, by decide⟩,
   (c9_range_and_status upstream206 "bytes=100-199").1.1,
   ((c9_range_and_status upstream206 "bytes=100-199").2.1 (by decide)).1,
   ((c9_range_and_status upstream206 "bytes=100-199").2.1 (by decide)).2.1,
   (c9_range_and_status upstream404 "bytes=100-199").2.2.1 (by decide) (by decide)⟩

/-- Claim C10: the response-cache key is computed from the augmented query
and max_results alone, so two requests with the same query and limit share
one cache slot whatever their verified-only flags: after the first request
stores its response, a second request within the ttl reads that stored
response back for either value of the flag. -/
theorem c10_cache_key_ignores_verified_only (sc : CacheManager β) (q : String) (maxR : Int)
    (resp : β) (now0 now1 : Nat) (v1 v2 : Bool)
    (hsize : sc.cache.length < sc.max_size) (ht : now1 ≤ now0 + 300) :
    (search_frontend_cache_lookup
        (sc.set now0 (search_cache_key (augmented_query q) maxR) resp (some 300)) now1 q maxR v1).1
      = some resp ∧
      (search_frontend_cache_lookup
        (sc.set now0 (search_cache_key (augmented_query q) maxR) resp (some 300)) now1 q maxR v2).1
      = some resp := by
  constructor <;>
    exact get_after_set_live sc (search_cache_key (augmented_query q) maxR) resp 300 now0 now1
      hsize (by decide) ht

/-- Claim C10, witness: a concrete pair of requests differing only in the
verified-only flag, the second issued 100 seconds after the first. -/
theorem c10_cache_key_ignores_verified_only_witness :
    (natCache0.cache.length < natCache0.max_size ∧ 100 ≤ 0 + 300) ∧
      (search_frontend_cache_lookup
          (natCache0.set 0 (search_cache_key (augmented_query "imagine dragons believer") 5) 42 (some 300))
          100 "imagine dragons believer" 5 false).1 = some 42 ∧
      (search_frontend_cache_lookup
          (natCache0.set 0 (search_cache_key (augmented_query "imagine dragons believer") 5) 42 (some 300))
          100 "imagine dragons believer" 5 true).1 = some 42 :=
  ⟨⟨by decide, by decide⟩,
   (c10_cache_key_ignores_verified_only natCache0 "imagine dragons believer" 5 42 0 100 false true
      (by decide) (by decide)).1,
   (c10_cache_key_ignores_verified_only natCache0 "imagine dragons believer" 5 42 0 100 false true
      (by decide) (by decide)).2⟩
